import Mathlib

/-!
Shallow embedding of `src/backend/main.py` (Thai Government Lottery API).

The durable SQLite table `lottery_results` is modelled as a `Store`: a list of
`Row`s together with the AUTOINCREMENT counter `nextId` (SQLite's
`INTEGER PRIMARY KEY AUTOINCREMENT` hands out strictly increasing rowids,
starting at 1, and never reuses one after a DELETE because the high-water mark
is kept in `sqlite_sequence`).  The `created_at` column (wall-clock timestamp,
touched by no endpoint logic) is not modelled.

Each HTTP handler becomes a pure function `Store → args → Store × Except _ r`
(the store component is the state of the durable database after the request;
`HErr.httpExc` models `fastapi.HTTPException`).  SQLite specifics embedded:
  * `cursor.execute` of the INSERT has two failure stages, modelled by
    `executeInsert`: CPython's sqlite3 first binds the parameters and raises
    `OverflowError` when a Python int does not fit SQLite's signed 64-bit
    INTEGER (only `prize_amount` can trigger this — pydantic's `int` is
    unbounded); then the UNIQUE(draw_date, period, prize_type, prize_number)
    constraint raises `sqlite3.IntegrityError` exactly when a row with the
    same 4-tuple exists.  TEXT columns are never NULL (the pydantic model
    types them as `str`), so no other failure is reachable.  `insertRow` is
    the constraint stage alone, i.e. the restriction of `executeInsert` to
    in-range `prize_amount`; the single-insert handlers are stated over it,
    on that in-range regime, while the bulk handler — where the uncaught
    OverflowError changes the outcome — is built on `executeInsert`;
  * an uncaught exception leaves the handler before `conn.commit()`, so the
    transaction's inserts are rolled back: the durable store reverts to its
    state at call entry and the framework answers a generic 500;
  * `LIMIT ?` with a negative bound means "no limit" (`sqlLimit`);
  * `ORDER BY` on TEXT uses the BINARY collation, i.e. bytewise comparison of
    the UTF-8 encodings, which for valid UTF-8 coincides with codepoint-wise
    lexicographic order (`charListLt` on `String.data`).
-/

namespace Lottery

/-- Codepoint-wise lexicographic order on char lists: the order SQLite's BINARY
collation induces on TEXT values (memcmp on UTF-8 bytes). -/
def charListLt : List Char → List Char → Bool
  | [], [] => false
  | [], _ :: _ => true
  | _ :: _, [] => false
  | a :: as, b :: bs =>
    if a.toNat < b.toNat then true
    else if b.toNat < a.toNat then false
    else charListLt as bs

/-- SQLite BINARY-collation strict order on strings. -/
def strLtB (a b : String) : Bool := charListLt a.data b.data

/-- The pydantic request model `LotteryResult` from `main.py` lines 25-29.
Note: it has `draw_date`, `prize_type`, `prize_number`, optional
`prize_amount` — and no `period` and no `id` field; a caller can never supply
those directly. -/
structure LotteryResult where
  draw_date : String
  prize_type : String
  prize_number : String
  prize_amount : Option Int
deriving DecidableEq, Repr

/-- One persisted row of the `lottery_results` table (minus `created_at`). -/
structure Row where
  id : Nat
  draw_date : String
  period : String
  prize_type : String
  prize_number : String
  prize_amount : Option Int
deriving DecidableEq, Repr

/-- The durable database: the table contents in insertion order plus the
AUTOINCREMENT high-water counter. -/
structure Store where
  rows : List Row
  nextId : Nat
deriving DecidableEq, Repr

/-- Fresh database as created by `init_db`: empty table, first rowid will be 1. -/
def Store.init : Store := ⟨[], 1⟩

/-- Model of a raised `fastapi.HTTPException(status_code, detail)`. -/
inductive HErr where
  | httpExc (status : Nat) (detail : String)
deriving DecidableEq, Repr

/-- Python's `str()` of a (fastapi/starlette) HTTPException:
`f"{status_code}: {detail}"`. -/
def HErr.str : HErr → String
  | .httpExc s d => toString s ++ ": " ++ d

instance {ε α : Type} [DecidableEq ε] [DecidableEq α] : DecidableEq (Except ε α) := fun x y =>
  match x, y with
  | .ok a, .ok b =>
    if h : a = b then isTrue (congrArg Except.ok h)
    else isFalse (fun hh => h (by injection hh))
  | .error a, .error b =>
    if h : a = b then isTrue (congrArg Except.error h)
    else isFalse (fun hh => h (by injection hh))
  | .ok _, .error _ => isFalse (fun hh => by injection hh)
  | .error _, .ok _ => isFalse (fun hh => by injection hh)

/-- Model of `sqlite3.IntegrityError` (here only ever the UNIQUE violation). -/
inductive SqlError where
  | integrityError
deriving DecidableEq, Repr

/-- The UNIQUE(draw_date, period, prize_type, prize_number) constraint check:
true iff a row with the same 4-tuple is already stored. -/
def dupKey (rows : List Row) (d p t n : String) : Bool :=
  rows.any (fun r => r.draw_date = d && r.period = p && r.prize_type = t && r.prize_number = n)

/-- The constraint stage of one `INSERT INTO lottery_results ...`: raises
`IntegrityError` on a UNIQUE violation, otherwise appends the row with the
fresh AUTOINCREMENT id and bumps the counter.  `cursor.lastrowid` is the
second component of the success value.  This is `executeInsert` (below)
restricted to `prize_amount` values within SQLite's signed 64-bit range,
where parameter binding cannot fail. -/
def insertRow (s : Store) (d p t n : String) (amt : Option Int) :
    Except SqlError (Store × Nat) :=
  if dupKey s.rows d p t n then .error .integrityError
  else .ok ({ rows := s.rows ++ [⟨s.nextId, d, p, t, n, amt⟩], nextId := s.nextId + 1 }, s.nextId)

/-- Smallest value of SQLite's INTEGER storage class (signed 64-bit). -/
def int64Min : Int := -(2 ^ 63)

/-- Largest value of SQLite's INTEGER storage class (signed 64-bit). -/
def int64Max : Int := 2 ^ 63 - 1

/-- CPython's sqlite3 parameter binding: a Python int outside the signed
64-bit range raises `OverflowError` ("Python int too large to convert to
SQLite INTEGER") before any SQL runs.  Pydantic's `int` is unbounded, so
`prize_amount` can carry such a value into the handlers. -/
def bindOverflow (amt : Option Int) : Bool :=
  match amt with
  | none => false
  | some v => v < int64Min || int64Max < v

/-- The exceptions one `cursor.execute` of the INSERT can raise:
`OverflowError` from parameter binding (not a `sqlite3.IntegrityError`, so
the bulk loop's `except sqlite3.IntegrityError` does not catch it), or
`IntegrityError` from the UNIQUE constraint. -/
inductive ExecError where
  | overflowError
  | integrityError
deriving DecidableEq, Repr

/-- One full `cursor.execute(INSERT ...)`: the binding stage first (it can
overflow), then the constraint stage `insertRow`. -/
def executeInsert (s : Store) (d p t n : String) (amt : Option Int) :
    Except ExecError (Store × Nat) :=
  if bindOverflow amt then .error .overflowError
  else
    match insertRow s d p t n amt with
    | .ok r => .ok r
    | .error .integrityError => .error .integrityError

/-- The period-derivation rule used by all three insertion paths:
`period = f"งวดวันที่ {draw_date}"` (a fixed Thai prefix plus the draw date). -/
def periodOf (draw_date : String) : String := "งวดวันที่ " ++ draw_date

/-- The success payload of `POST /add` (the `message` field is a constant
string and is omitted). -/
structure AddResponse where
  id : Nat
  period : String
deriving DecidableEq, Repr

/-- Handler `add_result` for `POST /add` (`main.py` lines 141-176): derive the
period from the draw date, insert; on `IntegrityError` answer HTTP 400.
Modelled on the in-range regime of `prize_amount` (binding cannot fail), the
regime in which this handler's properties are stated; an out-of-range value
would raise `OverflowError` before the constraint check, uncaught by this
handler's `except sqlite3.IntegrityError`. -/
def add_result (s : Store) (result : LotteryResult) : Store × Except HErr AddResponse :=
  let period := periodOf result.draw_date
  match insertRow s result.draw_date period result.prize_type result.prize_number
      result.prize_amount with
  | .ok (s', rid) => (s', .ok ⟨rid, period⟩)
  | .error _ => (s, .error (.httpExc 400 "This result already exists in the database"))

/-- The per-item loop of `POST /add_bulk` (`main.py` lines 187-204), run
against the transaction state: per item derive the period and
`cursor.execute` the insert; `except sqlite3.IntegrityError` bumps the
skipped counter and continues — but ONLY `IntegrityError` is caught, so an
`OverflowError` from binding an out-of-range `prize_amount` propagates and
aborts the loop, abandoning the remaining items. -/
def add_bulk_loop (s : Store) : List LotteryResult → Except ExecError (Store × Nat × Nat)
  | [] => .ok (s, 0, 0)
  | r :: rs =>
    match executeInsert s r.draw_date (periodOf r.draw_date) r.prize_type r.prize_number
        r.prize_amount with
    | .ok p =>
      (add_bulk_loop p.1 rs).map (fun q => (q.1, q.2.1 + 1, q.2.2))
    | .error .integrityError =>
      (add_bulk_loop s rs).map (fun q => (q.1, q.2.1, q.2.2 + 1))
    | .error .overflowError => .error .overflowError

/-- Handler `add_bulk_results` for `POST /add_bulk` (`main.py` lines 178-213):
when the loop completes, `conn.commit()` persists the transaction and the
endpoint answers 200 with {added, skipped}; when the loop raises (an
`OverflowError` item), the handler exits before `conn.commit()` at line 206,
so every insert of the call is rolled back — the durable store reverts to its
state at call entry — and the request fails wholesale with the framework's
generic 500 (the error component carries the uncaught exception). -/
def add_bulk_results (s : Store) (results : List LotteryResult) :
    Store × Except ExecError (Nat × Nat) :=
  match add_bulk_loop s results with
  | .ok q => (q.1, .ok (q.2.1, q.2.2))
  | .error e => (s, .error e)

/-- The `ORDER BY draw_date DESC, id DESC` comparison of `GET /results`:
row `r1` may precede `r2` iff `r1.draw_date` is strictly larger, or the dates
are equal and `r1.id` is at least `r2.id`. -/
def listAllRel (r1 r2 : Row) : Prop :=
  strLtB r2.draw_date r1.draw_date = true ∨ (r2.draw_date = r1.draw_date ∧ r2.id ≤ r1.id)

instance : DecidableRel listAllRel := fun a b => by
  unfold listAllRel; exact inferInstance

/-- SQLite `LIMIT ?` semantics: a negative limit means no limit at all;
otherwise at most `limit` rows are produced. -/
def sqlLimit (limit : Int) (l : List Row) : List Row :=
  if limit < 0 then l else l.take limit.toNat

/-- Handler `get_all_results` for `GET /results?limit=N` (`main.py` lines
87-99): all rows ordered by `draw_date DESC, id DESC`, limited.  The handler
performs no validation of `limit` and never fails. -/
def get_all_results (s : Store) (limit : Int) : List Row :=
  sqlLimit limit (List.insertionSort listAllRel s.rows)

/-- The Python signature `def get_all_results(limit: int = 100)`: calling the
endpoint without a `limit` query parameter uses 100. -/
def get_all_results_default (s : Store) : List Row := get_all_results s 100

/-- The `CASE prize_type ... END` rank of `GET /results/{period}`:
first prize 1, front-3 2, back-3 3, back-2 4, anything else 5. -/
def prizeRank (t : String) : Nat :=
  if t = "รางวัลที่ 1" then 1
  else if t = "เลขหน้า 3 ตัว" then 2
  else if t = "เลขท้าย 3 ตัว" then 3
  else if t = "เลขท้าย 2 ตัว" then 4
  else 5

/-- The `ORDER BY CASE prize_type ... END, id` comparison of
`GET /results/{period}`: by prize-type rank, ties by ascending id. -/
def periodRel (r1 r2 : Row) : Prop :=
  prizeRank r1.prize_type < prizeRank r2.prize_type ∨
    (prizeRank r1.prize_type = prizeRank r2.prize_type ∧ r1.id ≤ r2.id)

instance : DecidableRel periodRel := fun a b => by
  unfold periodRel; exact inferInstance

instance : IsTotal Row periodRel := by
  constructor
  intro a b
  unfold periodRel
  omega

instance : IsTrans Row periodRel := by
  constructor
  intro a b c hab hbc
  unfold periodRel at *
  omega

/-- Handler `get_results_by_period` for `GET /results/{period}` (`main.py`
lines 101-125): select the rows of the period in the fixed prize-type order;
an empty result set becomes HTTP 404. -/
def get_results_by_period (s : Store) (period : String) : Except HErr (List Row) :=
  let rows := List.insertionSort periodRel (s.rows.filter (fun r => r.period = period))
  if rows.isEmpty then .error (.httpExc 404 ("No results found for period " ++ period))
  else .ok rows

/-- Handler `delete_result` for `DELETE /results/{id}` (`main.py` lines
299-313): `DELETE FROM lottery_results WHERE id = ?`; `cursor.rowcount == 0`
(no row matched) becomes HTTP 404.  The AUTOINCREMENT counter is untouched. -/
def delete_result (s : Store) (result_id : Nat) : Store × Except HErr Unit :=
  let remaining := s.rows.filter (fun r => r.id ≠ result_id)
  if remaining.length = s.rows.length then (s, .error (.httpExc 404 "Result not found"))
  else ({ s with rows := remaining }, .ok ())

/-- The upstream HTTP response obtained by `httpx` in `scrape_latest_results`. -/
structure FetchResponse where
  status_code : Nat
  content : String
deriving DecidableEq, Repr

/-- One candidate triple extracted from the fetched document (text already
stripped); the scrape path stores no `prize_amount`. -/
structure Candidate where
  draw_date : String
  prize_type : String
  prize_number : String
deriving DecidableEq, Repr

/-- The two success payload shapes of `GET /scrape`: the advisory
"no results found" answer, or the `{total_found, added_to_db}` report. -/
inductive ScrapeOutcome where
  | noResults
  | report (total_found : Nat) (added_to_db : Nat)
deriving DecidableEq, Repr

/-- The insert loop of `scrape_latest_results`: insert each candidate with the
derived period and NULL `prize_amount`; `except sqlite3.IntegrityError:
continue` silently skips duplicates.  Returns (store, added). -/
def scrapeInsertLoop (s : Store) : List Candidate → Store × Nat
  | [] => (s, 0)
  | c :: cs =>
    match insertRow s c.draw_date (periodOf c.draw_date) c.prize_type c.prize_number none with
    | .ok (s', _) =>
      let t := scrapeInsertLoop s' cs
      (t.1, t.2 + 1)
    | .error _ => scrapeInsertLoop s cs

/-- The `try:` body of `scrape_latest_results` (`main.py` lines 221-291): a
non-200 upstream status raises `HTTPException(502, ...)`; otherwise the
extraction step (opaque here: the BeautifulSoup selectors, passed in as
`extract`) yields candidates; zero candidates is the advisory answer, and
otherwise the candidates are inserted and the report returned. -/
def scrapeTryBody (s : Store) (resp : FetchResponse)
    (extract : String → List Candidate) : Store × Except HErr ScrapeOutcome :=
  if resp.status_code ≠ 200 then
    (s, .error (.httpExc 502 ("Failed to fetch data from GLO website: " ++
      toString resp.status_code)))
  else
    let results := extract resp.content
    if results.isEmpty then (s, .ok .noResults)
    else
      let t := scrapeInsertLoop s results
      (t.1, .ok (.report results.length t.2))

/-- Handler `scrape_latest_results` for `GET /scrape` (`main.py` lines
215-297).  The whole `try:` body sits inside `except Exception as e: raise
HTTPException(500, f"Error scraping website: {str(e)}")` — and
`fastapi.HTTPException` IS an `Exception`, so the `HTTPException(502, ...)`
raised on a bad upstream status is caught here and re-raised as a 500 whose
detail wraps `str(e) = f"{status}: {detail}"`. -/
def scrape_latest_results (s : Store) (resp : FetchResponse)
    (extract : String → List Candidate) : Store × Except HErr ScrapeOutcome :=
  match scrapeTryBody s resp extract with
  | (s', .ok out) => (s', .ok out)
  | (s', .error e) =>
    (s', .error (.httpExc 500 ("Error scraping website: " ++ e.str)))

/-- All stored rowids are below the AUTOINCREMENT counter. -/
def idsBounded (s : Store) : Prop := ∀ r ∈ s.rows, r.id < s.nextId

/-- Stored rowids are pairwise distinct (PRIMARY KEY). -/
def idsNodup (s : Store) : Prop := s.rows.Pairwise (fun a b => a.id ≠ b.id)

/-- Store well-formedness: established by `init_db` and preserved by every
handler. -/
def WF (s : Store) : Prop := idsBounded s ∧ idsNodup s

/-- Every stored row's `period` is the fixed prefix plus its own `draw_date`. -/
def periodInv (s : Store) : Prop := ∀ r ∈ s.rows, r.period = periodOf r.draw_date

/-- A one-row store used for concrete evaluations. -/
def exRow : Row := ⟨1, "a", "งวดวันที่ a", "t", "7", none⟩

/-- C1: in `scrape_latest_results` a non-success upstream status does abort the
operation with zero inserts (the store comes back unchanged), but the
`HTTPException(502, ...)` raised inside the `try:` body is an `Exception`, so
the blanket `except Exception` catches it and re-raises it as HTTP 500 with
the 502 exception stringified into the detail — the caller sees 500, not the
502 the code explicitly constructs. -/
theorem scrape_nonsuccess_aborts_with_500_no_inserts
    (s : Store) (resp : FetchResponse) (extract : String → List Candidate)
    (h : resp.status_code ≠ 200) :
    scrape_latest_results s resp extract =
      (s, .error (.httpExc 500 ("Error scraping website: " ++
        HErr.str (.httpExc 502 ("Failed to fetch data from GLO website: " ++
          toString resp.status_code))))) := by
  unfold scrape_latest_results scrapeTryBody
  rw [if_pos h]

/-- C1 witness: an upstream 404 makes `GET /scrape` on a fresh store answer
HTTP 500 (wrapping the internal 502 text) and insert nothing. -/
theorem scrape_nonsuccess_aborts_with_500_no_inserts_witness :
    scrape_latest_results Store.init ⟨404, "doc"⟩ (fun _ => []) =
      (Store.init, .error (.httpExc 500
        "Error scraping website: 502: Failed to fetch data from GLO website: 404")) :=
  scrape_nonsuccess_aborts_with_500_no_inserts Store.init ⟨404, "doc"⟩ (fun _ => [])
    (by decide)

/-- C3 counterexample: `POST /add` with every required field the empty string
succeeds (HTTP 200, id 1, period equal to the bare prefix) and adds a row —
there is no emptiness validation anywhere in `add_result`. -/
theorem add_empty_fields_accepted_cex :
    (add_result Store.init ⟨"", "", "", none⟩).2 = .ok ⟨1, "งวดวันที่ "⟩ ∧
    (add_result Store.init ⟨"", "", "", none⟩).1.rows.length = 1 := by
  decide

/-- C3 amended: `add_result` performs no validation of the required fields;
an input with an empty `draw_date`, `prize_type` or `prize_number` is inserted
like any other (provided it is not a duplicate), the row is appended and a
fresh id returned. -/
theorem add_empty_fields_no_validation (s : Store) (result : LotteryResult)
    (_he : result.draw_date = "" ∨ result.prize_type = "" ∨ result.prize_number = "")
    (hd : dupKey s.rows result.draw_date (periodOf result.draw_date)
      result.prize_type result.prize_number = false) :
    add_result s result =
      (⟨s.rows ++ [⟨s.nextId, result.draw_date, periodOf result.draw_date,
          result.prize_type, result.prize_number, result.prize_amount⟩],
        s.nextId + 1⟩,
       .ok ⟨s.nextId, periodOf result.draw_date⟩) := by
  unfold add_result insertRow
  simp [hd]

/-- C3 amended witness: an input with empty `draw_date` is stored as row 1. -/
theorem add_empty_fields_no_validation_witness :
    add_result Store.init ⟨"", "x", "y", none⟩ =
      (⟨[⟨1, "", "งวดวันที่ ", "x", "y", none⟩], 2⟩, .ok ⟨1, "งวดวันที่ "⟩) :=
  add_empty_fields_no_validation Store.init ⟨"", "x", "y", none⟩ (Or.inl rfl) (by decide)

/-- C4 counterexample: `GET /results` with `limit = -1` on a one-row store is
not rejected — it answers normally with the full contents — and `limit = 0`
answers normally with the empty list; no `ValidationError` exists on this
path (`get_all_results` is total). -/
theorem listAll_nonpositive_limit_not_rejected_cex :
    get_all_results ⟨[exRow], 2⟩ (-1) = [exRow] ∧
    get_all_results ⟨[exRow], 2⟩ 0 = [] := by
  decide

/-- C4 amended: `limit ≤ 0` is not a `ValidationError`: a negative limit
disables the bound (all rows come back), `limit = 0` yields the empty list,
a positive limit bounds the row count by `limit`, and an absent limit
defaults to 100. -/
theorem listAll_limit_semantics (s : Store) (limit : Int) :
    (get_all_results s limit).length =
      (if limit < 0 then s.rows.length else min limit.toNat s.rows.length) ∧
    get_all_results_default s = get_all_results s 100 := by
  refine ⟨?_, rfl⟩
  unfold get_all_results sqlLimit
  by_cases h : limit < 0
  · rw [if_pos h, if_pos h]
    exact (List.perm_insertionSort _ _).length_eq
  · rw [if_neg h, if_neg h, List.length_take,
      (List.perm_insertionSort listAllRel s.rows).length_eq]

/-- C5: a second insert of an already-present
(draw_date, period, prize_type, prize_number) tuple through `POST /add` fails
with the duplicate-key rejection (HTTP 400, a client error) and returns the
store exactly as it was: same row count, nothing overwritten. -/
theorem add_duplicate_rejected_store_unchanged (s : Store) (result : LotteryResult)
    (h : ∃ row ∈ s.rows, row.draw_date = result.draw_date ∧
      row.period = periodOf result.draw_date ∧
      row.prize_type = result.prize_type ∧ row.prize_number = result.prize_number) :
    add_result s result =
      (s, .error (.httpExc 400 "This result already exists in the database")) := by
  have hd : dupKey s.rows result.draw_date (periodOf result.draw_date)
      result.prize_type result.prize_number = true := by
    rcases h with ⟨row, hrow, h1, h2, h3, h4⟩
    unfold dupKey
    rw [List.any_eq_true]
    exact ⟨row, hrow, by simp [h1, h2, h3, h4]⟩
  unfold add_result insertRow
  simp [hd]

/-- C5 witness: re-inserting the one stored row is rejected with HTTP 400 and
the store is unchanged. -/
theorem add_duplicate_rejected_store_unchanged_witness :
    add_result ⟨[exRow], 2⟩ ⟨"a", "t", "7", none⟩ =
      (⟨[exRow], 2⟩, .error (.httpExc 400 "This result already exists in the database")) :=
  add_duplicate_rejected_store_unchanged ⟨[exRow], 2⟩ ⟨"a", "t", "7", none⟩
    ⟨exRow, by decide, by decide, by decide, by decide, by decide⟩

/-- C10: `GET /results` with a negative limit returns the entire store
contents (as a permutation of all stored rows — the limit bound is simply not
applied), and with `limit = 0` returns the empty list; neither case is
rejected, the handler being total. -/
theorem listAll_negative_all_zero_empty (s : Store) (limit : Int) :
    (limit < 0 → (get_all_results s limit).Perm s.rows) ∧
    get_all_results s 0 = [] := by
  constructor
  · intro h
    unfold get_all_results sqlLimit
    rw [if_pos h]
    exact List.perm_insertionSort _ _
  · unfold get_all_results sqlLimit
    rw [if_neg (by decide)]
    rfl

/-- C10 witness: limit -1 on a one-row store yields exactly that row. -/
theorem listAll_negative_all_zero_empty_witness :
    (get_all_results ⟨[exRow], 2⟩ (-1)).Perm [exRow] :=
  (listAll_negative_all_zero_empty ⟨[exRow], 2⟩ (-1)).1 (by decide)

/-- Characterization of a successful `insertRow`: the row is appended with the
current counter as id and the counter is bumped. -/
theorem insertRow_ok_spec (s : Store) (d p t n : String) (amt : Option Int)
    (s' : Store) (rid : Nat) (h : insertRow s d p t n amt = .ok (s', rid)) :
    s' = ⟨s.rows ++ [⟨s.nextId, d, p, t, n, amt⟩], s.nextId + 1⟩ ∧ rid = s.nextId := by
  unfold insertRow at h
  by_cases hd : dupKey s.rows d p t n = true
  · rw [if_pos hd] at h
    exact absurd h (by simp)
  · rw [if_neg hd] at h
    injection h with h1
    injection h1 with h2 h3
    exact ⟨h2.symm, h3.symm⟩

/-- Characterization of a successful `executeInsert`: binding and constraint
both passed, the row is appended under the current counter. -/
theorem executeInsert_ok_spec (s : Store) (d p t n : String) (amt : Option Int)
    (s' : Store) (rid : Nat) (h : executeInsert s d p t n amt = .ok (s', rid)) :
    s' = ⟨s.rows ++ [⟨s.nextId, d, p, t, n, amt⟩], s.nextId + 1⟩ ∧ rid = s.nextId := by
  unfold executeInsert at h
  by_cases hb : bindOverflow amt = true
  · rw [if_pos hb] at h
    exact absurd h (by simp)
  · rw [if_neg hb] at h
    cases hi : insertRow s d p t n amt with
    | ok q =>
      rw [hi] at h
      injection h with h1
      rw [h1] at hi
      exact insertRow_ok_spec s d p t n amt s' rid hi
    | error e =>
      cases e
      rw [hi] at h
      exact absurd h (by simp)

/-- `executeInsert` reports `OverflowError` only for an out-of-range
`prize_amount`. -/
theorem executeInsert_overflow (s : Store) (d p t n : String) (amt : Option Int)
    (h : executeInsert s d p t n amt = .error .overflowError) :
    bindOverflow amt = true := by
  by_contra hb
  rw [Bool.not_eq_true] at hb
  unfold executeInsert at h
  rw [if_neg (by simp [hb])] at h
  cases hi : insertRow s d p t n amt with
  | ok q =>
    rw [hi] at h
    exact absurd h (by simp)
  | error e =>
    cases e
    rw [hi] at h
    injection h with h1
    exact ExecError.noConfusion h1

/-- Unfolding the bulk loop on a successfully inserted head item. -/
theorem add_bulk_loop_cons_ok (s : Store) (r : LotteryResult) (rs : List LotteryResult)
    (p : Store × Nat)
    (h : executeInsert s r.draw_date (periodOf r.draw_date) r.prize_type r.prize_number
      r.prize_amount = .ok p) :
    add_bulk_loop s (r :: rs) =
      (add_bulk_loop p.1 rs).map (fun q => (q.1, q.2.1 + 1, q.2.2)) := by
  simp only [add_bulk_loop, h]

/-- Unfolding the bulk loop on a duplicate head item: counted as skipped,
processing continues on the unchanged transaction state. -/
theorem add_bulk_loop_cons_dup (s : Store) (r : LotteryResult) (rs : List LotteryResult)
    (h : executeInsert s r.draw_date (periodOf r.draw_date) r.prize_type r.prize_number
      r.prize_amount = .error .integrityError) :
    add_bulk_loop s (r :: rs) =
      (add_bulk_loop s rs).map (fun q => (q.1, q.2.1, q.2.2 + 1)) := by
  simp only [add_bulk_loop, h]

/-- Unfolding the bulk loop on an overflowing head item: the exception
propagates, the remaining items are abandoned. -/
theorem add_bulk_loop_cons_ovf (s : Store) (r : LotteryResult) (rs : List LotteryResult)
    (h : executeInsert s r.draw_date (periodOf r.draw_date) r.prize_type r.prize_number
      r.prize_amount = .error .overflowError) :
    add_bulk_loop s (r :: rs) = .error .overflowError := by
  simp only [add_bulk_loop, h]

/-- When every item's `prize_amount` binds, the bulk loop completes: each item
is counted exactly once and the transaction extends the entry state. -/
theorem add_bulk_loop_ok_of_inrange (results : List LotteryResult) :
    ∀ s : Store, (∀ r ∈ results, bindOverflow r.prize_amount = false) →
      ∃ s' a k, add_bulk_loop s results = .ok (s', a, k) ∧
        a + k = results.length ∧ ∃ t, s'.rows = s.rows ++ t := by
  induction results with
  | nil =>
    intro s _
    exact ⟨s, 0, 0, rfl, rfl, ⟨[], by simp⟩⟩
  | cons r rs ih =>
    intro s h
    have hr : bindOverflow r.prize_amount = false := h r (List.mem_cons_self r rs)
    have hrs : ∀ x ∈ rs, bindOverflow x.prize_amount = false :=
      fun x hx => h x (List.mem_cons_of_mem r hx)
    cases hi : executeInsert s r.draw_date (periodOf r.draw_date) r.prize_type
        r.prize_number r.prize_amount with
    | ok p =>
      obtain ⟨s', a, k, hloop, hak, t, ht⟩ := ih p.1 hrs
      obtain ⟨hps, _⟩ := executeInsert_ok_spec s _ _ _ _ _ p.1 p.2 (by rw [hi])
      refine ⟨s', a + 1, k, ?_, by dsimp only [List.length_cons]; omega,
        ⟨⟨s.nextId, r.draw_date, periodOf r.draw_date, r.prize_type,
          r.prize_number, r.prize_amount⟩ :: t, ?_⟩⟩
      · rw [add_bulk_loop_cons_ok s r rs p hi, hloop]
        rfl
      · rw [ht, hps]
        simp
    | error e =>
      cases e with
      | overflowError =>
        exact absurd (executeInsert_overflow s _ _ _ _ _ hi) (by rw [hr]; exact Bool.false_ne_true)
      | integrityError =>
        obtain ⟨s', a, k, hloop, hak, t, ht⟩ := ih s hrs
        refine ⟨s', a, k + 1, ?_, by dsimp only [List.length_cons]; omega, ⟨t, ht⟩⟩
        rw [add_bulk_loop_cons_dup s r rs hi, hloop]
        rfl

/-- When the bulk call fails (the loop raised), the commit is never reached
and the durable store reverts to its state at call entry. -/
theorem add_bulk_abort_rolls_back (s : Store) (results : List LotteryResult)
    (h : (add_bulk_results s results).2.isOk = false) :
    (add_bulk_results s results).1 = s := by
  cases hl : add_bulk_loop s results with
  | ok q =>
    have hok : (add_bulk_results s results).2 = .ok (q.2.1, q.2.2) := by
      unfold add_bulk_results
      rw [hl]
    rw [hok] at h
    simp [Except.isOk, Except.toBool] at h
  | error e =>
    unfold add_bulk_results
    rw [hl]

/-- A duplicate head item is skipped and the call continues with the rest. -/
theorem add_bulk_cons_dup_handler (s : Store) (r : LotteryResult)
    (rs : List LotteryResult)
    (h : executeInsert s r.draw_date (periodOf r.draw_date) r.prize_type r.prize_number
      r.prize_amount = .error .integrityError) :
    add_bulk_results s (r :: rs) =
      ((add_bulk_results s rs).1,
       (add_bulk_results s rs).2.map (fun p => (p.1, p.2 + 1))) := by
  unfold add_bulk_results
  rw [add_bulk_loop_cons_dup s r rs h]
  cases hq : add_bulk_loop s rs with
  | ok q => rfl
  | error e => rfl

/-- An overflowing head item aborts the whole call with the store reverted. -/
theorem add_bulk_cons_overflow (s : Store) (r : LotteryResult)
    (rs : List LotteryResult) (h : bindOverflow r.prize_amount = true) :
    add_bulk_results s (r :: rs) = (s, .error .overflowError) := by
  have hx : executeInsert s r.draw_date (periodOf r.draw_date) r.prize_type
      r.prize_number r.prize_amount = .error .overflowError := by
    unfold executeInsert
    rw [if_pos h]
  unfold add_bulk_results
  rw [add_bulk_loop_cons_ovf s r rs hx]

/-- C2 counterexample: a two-item bulk call whose first item is valid and
whose second carries `prize_amount = 2^63` (one past SQLite's INTEGER
maximum) raises `OverflowError` out of the loop — uncaught by
`except sqlite3.IntegrityError` — so the call fails wholesale instead of
returning the counter pair, and, the commit never being reached, the first
item's already-executed insert is rolled back: the durable store is exactly
the pre-call store. -/
theorem add_bulk_overflow_aborts_and_rolls_back_cex :
    add_bulk_results Store.init
      [⟨"a", "t", "1", some 1⟩, ⟨"b", "t", "2", some 9223372036854775808⟩] =
      (Store.init, .error .overflowError) := by
  decide

/-- C2 amended: `POST /add_bulk` continues past duplicate items only.  When
every item's `prize_amount` fits SQLite's signed 64-bit INTEGER, the call
completes with {added, skipped}, added + skipped = number of inputs, and the
committed store extends the entry store (earlier rows kept in place); a
duplicate head item is counted as skipped and processing continues.  But on
any other per-item failure — concretely the `OverflowError` from binding an
out-of-range `prize_amount`, the one such failure reachable through the
input model — the loop aborts: the remaining items are abandoned, no counter
pair is returned, and every insert of the call is rolled back (the commit is
never reached), the store reverting to its state at call entry. -/
theorem add_bulk_skips_duplicates_but_aborts_on_overflow (s : Store)
    (results : List LotteryResult) :
    ((∀ r ∈ results, bindOverflow r.prize_amount = false) →
      ∃ s' a k, add_bulk_results s results = (s', .ok (a, k)) ∧
        a + k = results.length ∧ ∃ t, s'.rows = s.rows ++ t) ∧
    ((add_bulk_results s results).2.isOk = false →
      (add_bulk_results s results).1 = s) ∧
    (∀ r rs, executeInsert s r.draw_date (periodOf r.draw_date) r.prize_type
        r.prize_number r.prize_amount = .error .integrityError →
      add_bulk_results s (r :: rs) =
        ((add_bulk_results s rs).1,
         (add_bulk_results s rs).2.map (fun p => (p.1, p.2 + 1)))) ∧
    (∀ r rs, bindOverflow r.prize_amount = true →
      add_bulk_results s (r :: rs) = (s, .error .overflowError)) := by
  refine ⟨?_, add_bulk_abort_rolls_back s results,
    fun r rs h => add_bulk_cons_dup_handler s r rs h,
    fun r rs h => add_bulk_cons_overflow s r rs h⟩
  intro hall
  obtain ⟨s', a, k, hloop, hak, t, ht⟩ := add_bulk_loop_ok_of_inrange results s hall
  refine ⟨s', a, k, ?_, hak, t, ht⟩
  unfold add_bulk_results
  rw [hloop]

/-- C2 amended witness: an all-in-range one-item call completes with its
counter pair, and a single overflowing item aborts the call with the one-row
store returned unchanged. -/
theorem add_bulk_skips_duplicates_but_aborts_on_overflow_witness :
    (∃ s' a k, add_bulk_results Store.init [⟨"a", "t", "1", some 1⟩] = (s', .ok (a, k)) ∧
      a + k = 1 ∧ ∃ t, s'.rows = Store.init.rows ++ t) ∧
    add_bulk_results ⟨[exRow], 2⟩ [⟨"a", "t", "7", some 9223372036854775808⟩] =
      (⟨[exRow], 2⟩, .error .overflowError) :=
  ⟨(add_bulk_skips_duplicates_but_aborts_on_overflow Store.init
      [⟨"a", "t", "1", some 1⟩]).1 (by decide),
   (add_bulk_skips_duplicates_but_aborts_on_overflow ⟨[exRow], 2⟩ []).2.2.2
      ⟨"a", "t", "7", some 9223372036854775808⟩ [] (by decide)⟩

/-- An insert whose `period` argument is derived from its `draw_date` argument
preserves the period-derivation invariant. -/
theorem insertRow_periodInv (s : Store) (d t n : String) (amt : Option Int)
    (hp : periodInv s) (s' : Store) (rid : Nat)
    (h : insertRow s d (periodOf d) t n amt = .ok (s', rid)) : periodInv s' := by
  obtain ⟨hs, _⟩ := insertRow_ok_spec s d (periodOf d) t n amt s' rid h
  subst hs
  intro r hr
  dsimp only at hr
  rcases List.mem_append.mp hr with hm | hm
  · exact hp r hm
  · rw [List.mem_singleton.mp hm]

/-- `POST /add` preserves the period-derivation invariant. -/
theorem add_result_periodInv (s : Store) (result : LotteryResult) (hp : periodInv s) :
    periodInv (add_result s result).1 := by
  cases h : insertRow s result.draw_date (periodOf result.draw_date) result.prize_type
      result.prize_number result.prize_amount with
  | ok p =>
    obtain ⟨s', rid⟩ := p
    have he : (add_result s result).1 = s' := by
      simp only [add_result]
      rw [h]
    rw [he]
    exact insertRow_periodInv s _ _ _ _ hp s' rid h
  | error e =>
    have he : (add_result s result).1 = s := by
      simp only [add_result]
      rw [h]
    rw [he]
    exact hp

/-- An `executeInsert` whose `period` argument is derived from its
`draw_date` argument preserves the period-derivation invariant. -/
theorem executeInsert_periodInv (s : Store) (d t n : String) (amt : Option Int)
    (hp : periodInv s) (s' : Store) (rid : Nat)
    (h : executeInsert s d (periodOf d) t n amt = .ok (s', rid)) : periodInv s' := by
  obtain ⟨hs, _⟩ := executeInsert_ok_spec s d (periodOf d) t n amt s' rid h
  subst hs
  intro r hr
  dsimp only at hr
  rcases List.mem_append.mp hr with hm | hm
  · exact hp r hm
  · rw [List.mem_singleton.mp hm]

/-- The bulk loop preserves the period-derivation invariant on completion. -/
theorem add_bulk_loop_periodInv (results : List LotteryResult) :
    ∀ s : Store, periodInv s → ∀ q, add_bulk_loop s results = .ok q →
      periodInv q.1 := by
  induction results with
  | nil =>
    intro s hp q h
    injection h with h1
    rw [← h1]
    exact hp
  | cons r rs ih =>
    intro s hp q h
    cases hi : executeInsert s r.draw_date (periodOf r.draw_date) r.prize_type
        r.prize_number r.prize_amount with
    | ok p =>
      rw [add_bulk_loop_cons_ok s r rs p hi] at h
      cases hl : add_bulk_loop p.1 rs with
      | ok q' =>
        rw [hl] at h
        simp only [Except.map] at h
        injection h with h1
        rw [← h1]
        exact ih p.1 (executeInsert_periodInv s _ _ _ _ hp p.1 p.2 (by rw [hi])) q' hl
      | error e =>
        rw [hl] at h
        exact absurd h (by simp [Except.map])
    | error e =>
      cases e with
      | overflowError =>
        rw [add_bulk_loop_cons_ovf s r rs hi] at h
        exact absurd h (by simp)
      | integrityError =>
        rw [add_bulk_loop_cons_dup s r rs hi] at h
        cases hl : add_bulk_loop s rs with
        | ok q' =>
          rw [hl] at h
          simp only [Except.map] at h
          injection h with h1
          rw [← h1]
          exact ih s hp q' hl
        | error e2 =>
          rw [hl] at h
          exact absurd h (by simp [Except.map])

/-- `POST /add_bulk` preserves the period-derivation invariant whether the
call commits or aborts (an abort reverts the store). -/
theorem add_bulk_periodInv (results : List LotteryResult) :
    ∀ s : Store, periodInv s → periodInv (add_bulk_results s results).1 := by
  intro s hp
  cases hl : add_bulk_loop s results with
  | ok q =>
    have h1 : (add_bulk_results s results).1 = q.1 := by
      unfold add_bulk_results
      rw [hl]
    rw [h1]
    exact add_bulk_loop_periodInv results s hp q hl
  | error e =>
    have h1 : (add_bulk_results s results).1 = s := by
      unfold add_bulk_results
      rw [hl]
    rw [h1]
    exact hp

/-- The scrape insert loop preserves the period-derivation invariant. -/
theorem scrapeInsertLoop_periodInv (cs : List Candidate) :
    ∀ s : Store, periodInv s → periodInv (scrapeInsertLoop s cs).1 := by
  induction cs with
  | nil => intro s hp; exact hp
  | cons c cs ih =>
    intro s hp
    cases h : insertRow s c.draw_date (periodOf c.draw_date) c.prize_type c.prize_number
        none with
    | ok p =>
      obtain ⟨s', rid⟩ := p
      have he : scrapeInsertLoop s (c :: cs) =
          ((scrapeInsertLoop s' cs).1, (scrapeInsertLoop s' cs).2 + 1) := by
        simp only [scrapeInsertLoop, h]
      rw [he]
      exact ih s' (insertRow_periodInv s _ _ _ _ hp s' rid h)
    | error e =>
      cases e
      have he : scrapeInsertLoop s (c :: cs) = scrapeInsertLoop s cs := by
        simp only [scrapeInsertLoop, h]
      rw [he]
      exact ih s hp

/-- `GET /scrape` preserves the period-derivation invariant whatever the
upstream response and extraction produce. -/
theorem scrape_periodInv (s : Store) (resp : FetchResponse)
    (extract : String → List Candidate) (hp : periodInv s) :
    periodInv (scrape_latest_results s resp extract).1 := by
  simp only [scrape_latest_results, scrapeTryBody]
  by_cases h : resp.status_code ≠ 200
  · rw [if_pos h]
    exact hp
  · rw [if_neg h]
    by_cases he : (extract resp.content).isEmpty = true
    · rw [if_pos he]
      exact hp
    · rw [if_neg he]
      exact scrapeInsertLoop_periodInv (extract resp.content) s hp

/-- C9: every row ever stored carries `period = "งวดวันที่ " ++ draw_date`:
the pydantic input model `LotteryResult` (and the scraped `Candidate`) has no
`period` field, and all three insertion paths — `POST /add`,
`POST /add_bulk`, and the `GET /scrape` ingestion loop — compute the period
with the same fixed-prefix concatenation, so the invariant `periodInv` is
preserved unconditionally by each of them. -/
theorem all_insertion_paths_derive_period (s : Store) (hp : periodInv s) :
    (∀ result, periodInv (add_result s result).1) ∧
    (∀ results, periodInv (add_bulk_results s results).1) ∧
    (∀ resp extract, periodInv (scrape_latest_results s resp extract).1) :=
  ⟨fun result => add_result_periodInv s result hp,
   fun results => add_bulk_periodInv results s hp,
   fun resp extract => scrape_periodInv s resp extract hp⟩

/-- C9 witness: the invariant holds after an add on the fresh store. -/
theorem all_insertion_paths_derive_period_witness :
    periodInv (add_result Store.init ⟨"x", "t", "1", none⟩).1 :=
  (all_insertion_paths_derive_period Store.init
      (fun r hr => absurd hr (List.not_mem_nil r))).1 ⟨"x", "t", "1", none⟩

/-- Appending a row carrying the current counter as id and bumping the counter
keeps the store well-formed. -/
theorem WF_append_fresh (s : Store) (row : Row) (hrow : row.id = s.nextId)
    (hwf : WF s) : WF ⟨s.rows ++ [row], s.nextId + 1⟩ := by
  obtain ⟨hb, hn⟩ := hwf
  refine ⟨?_, ?_⟩
  · intro r hr
    dsimp only at hr ⊢
    rcases List.mem_append.mp hr with hm | hm
    · exact Nat.lt_succ_of_lt (hb r hm)
    · rw [List.mem_singleton.mp hm, hrow]
      exact Nat.lt_succ_self _
  · show (s.rows ++ [row]).Pairwise (fun a b => a.id ≠ b.id)
    rw [List.pairwise_append]
    refine ⟨hn, List.pairwise_singleton _ _, ?_⟩
    intro a ha b hb'
    rw [List.mem_singleton.mp hb', hrow]
    exact Nat.ne_of_lt (hb a ha)

/-- `DELETE /results/{id}` keeps the store well-formed and never touches the
AUTOINCREMENT counter (SQLite keeps the high-water mark in `sqlite_sequence`,
so a deleted id is never handed out again). -/
theorem delete_result_WF (s : Store) (rid : Nat) (hwf : WF s) :
    WF (delete_result s rid).1 ∧ (delete_result s rid).1.nextId = s.nextId := by
  simp only [delete_result]
  by_cases h : (s.rows.filter (fun r => r.id ≠ rid)).length = s.rows.length
  · rw [if_pos h]
    exact ⟨hwf, rfl⟩
  · rw [if_neg h]
    refine ⟨⟨?_, ?_⟩, rfl⟩
    · intro r hr
      exact hwf.1 r (List.mem_of_mem_filter hr)
    · exact List.Pairwise.sublist (List.filter_sublist _) hwf.2

/-- Characterization of a successful `POST /add`: the new store appends the
row under the current counter, and the response reports that id. -/
theorem add_result_ok_spec (s : Store) (result : LotteryResult) (s' : Store)
    (resp : AddResponse) (h : add_result s result = (s', .ok resp)) :
    s' = ⟨s.rows ++ [⟨s.nextId, result.draw_date, periodOf result.draw_date,
        result.prize_type, result.prize_number, result.prize_amount⟩], s.nextId + 1⟩ ∧
    resp.id = s.nextId := by
  cases hi : insertRow s result.draw_date (periodOf result.draw_date) result.prize_type
      result.prize_number result.prize_amount with
  | ok p =>
    obtain ⟨t, rid⟩ := p
    obtain ⟨ht, hrid⟩ := insertRow_ok_spec s _ _ _ _ _ t rid hi
    simp only [add_result] at h
    rw [hi] at h
    injection h with h1 h2
    injection h2 with h3
    subst h1
    rw [← h3]
    exact ⟨ht, hrid⟩
  | error e =>
    simp only [add_result] at h
    rw [hi] at h
    injection h with h1 h2
    exact absurd h2 (by simp)

/-- Any row produced by `GET /results` is a stored row. -/
theorem mem_get_all_results (s : Store) (limit : Int) (r : Row)
    (h : r ∈ get_all_results s limit) : r ∈ s.rows := by
  unfold get_all_results sqlLimit at h
  by_cases hl : limit < 0
  · rw [if_pos hl] at h
    exact (List.perm_insertionSort listAllRel s.rows).mem_iff.mp h
  · rw [if_neg hl] at h
    exact (List.perm_insertionSort listAllRel s.rows).mem_iff.mp (List.mem_of_mem_take h)

/-- C7 counterexample: on a store whose one row has draw_date "b", inserting a
valid row with draw_date "a" succeeds with fresh id 2, but the subsequent
`listAll` with limit 1 (which is ≥ 1) does not contain the inserted row at
all: the ordering is `draw_date DESC, id DESC`, so the older-dated new row
falls outside the limit window. -/
theorem insert_then_listAll_limit_one_misses_row_cex :
    (add_result ⟨[⟨1, "b", "งวดวันที่ b", "t", "9", none⟩], 2⟩ ⟨"a", "t", "9", none⟩).2 =
      .ok ⟨2, "งวดวันที่ a"⟩ ∧
    (get_all_results
        (add_result ⟨[⟨1, "b", "งวดวันที่ b", "t", "9", none⟩], 2⟩ ⟨"a", "t", "9", none⟩).1
        1).countP (fun r => r.id == 2) = 0 := by
  decide

/-- C7 amended: a successful insert assigns an id strictly greater than every
stored id, preserves well-formedness (so ids keep growing and are never
reused), deleting afterwards never lowers the id counter, and a subsequent
`listAll` whose limit covers the store size contains the inserted row exactly
once.  (With a smaller positive limit the row can be cut off by the
`draw_date DESC` ordering, as the counterexample shows.) -/
theorem insert_fresh_id_and_listAll_with_covering_limit (s : Store)
    (result : LotteryResult) (hwf : WF s) :
    ∀ s' resp, add_result s result = (s', .ok resp) →
      (∀ r ∈ s.rows, r.id < resp.id) ∧ WF s' ∧
      (∀ limit : Int, (s'.rows.length : Int) ≤ limit →
        (get_all_results s' limit).countP (fun r => r.id == resp.id) = 1) ∧
      (∀ rid, WF (delete_result s' rid).1 ∧
        (delete_result s' rid).1.nextId = s'.nextId) := by
  intro s' resp h
  obtain ⟨hs, hid⟩ := add_result_ok_spec s result s' resp h
  have hwf' : WF s' := by
    rw [hs]
    exact WF_append_fresh s _ rfl hwf
  refine ⟨?_, hwf', ?_, fun rid => delete_result_WF s' rid hwf'⟩
  · intro r hr
    rw [hid]
    exact hwf.1 r hr
  · intro limit hlim
    have hnn : ¬ limit < 0 := by omega
    unfold get_all_results sqlLimit
    rw [if_neg hnn]
    have hlen : (List.insertionSort listAllRel s'.rows).length ≤ limit.toNat := by
      rw [(List.perm_insertionSort listAllRel s'.rows).length_eq]
      omega
    rw [List.take_of_length_le hlen,
      (List.perm_insertionSort listAllRel s'.rows).countP_eq]
    rw [hs]
    dsimp only
    rw [List.countP_append]
    have h0 : s.rows.countP (fun r => r.id == resp.id) = 0 := by
      rw [List.countP_eq_zero]
      intro a ha
      have := hwf.1 a ha
      simp only [beq_iff_eq]
      omega
    rw [h0]
    simp [hid]

/-- C7 amended witness: inserting into the fresh store and listing with limit
5 shows the new row, id 1, exactly once. -/
theorem insert_fresh_id_and_listAll_with_covering_limit_witness :
    (get_all_results ⟨[⟨1, "a", "งวดวันที่ a", "t", "7", none⟩], 2⟩ 5).countP
      (fun r => r.id == 1) = 1 :=
  ((insert_fresh_id_and_listAll_with_covering_limit Store.init ⟨"a", "t", "7", none⟩
      ⟨fun r hr => absurd hr (List.not_mem_nil r), List.Pairwise.nil⟩
      ⟨[⟨1, "a", "งวดวันที่ a", "t", "7", none⟩], 2⟩ ⟨1, "งวดวันที่ a"⟩
      (by decide)).2.2.1 5 (by decide))

/-- Deleting an id that matches no stored row answers 404 and leaves the
store untouched. -/
theorem delete_result_notfound (s : Store) (rid : Nat)
    (h : ∀ r ∈ s.rows, r.id ≠ rid) :
    delete_result s rid = (s, .error (.httpExc 404 "Result not found")) := by
  have hall : s.rows.filter (fun r => r.id ≠ rid) = s.rows :=
    List.filter_eq_self.mpr (fun a ha => by simpa using h a ha)
  simp only [delete_result]
  rw [hall, if_pos rfl]

/-- C8: `DELETE /results/{id}` succeeds exactly when a row with that id
exists: then it answers 200, keeps precisely the other rows, and the deleted
id is absent from every subsequent `listAll`; deleting the same id again — or
any absent id — answers 404 with the store unchanged. -/
theorem delete_by_id_found_iff (s : Store) (rid : Nat) :
    ((∃ r ∈ s.rows, r.id = rid) →
      (delete_result s rid).2 = .ok () ∧
      (delete_result s rid).1.rows = s.rows.filter (fun r => r.id ≠ rid) ∧
      (∀ limit : Int, ∀ r ∈ get_all_results (delete_result s rid).1 limit, r.id ≠ rid) ∧
      (delete_result (delete_result s rid).1 rid).2 =
        .error (.httpExc 404 "Result not found")) ∧
    ((¬ ∃ r ∈ s.rows, r.id = rid) →
      delete_result s rid = (s, .error (.httpExc 404 "Result not found"))) := by
  constructor
  · intro hex
    have hlt : (s.rows.filter (fun r => r.id ≠ rid)).length < s.rows.length := by
      rw [List.length_filter_lt_length_iff_exists]
      obtain ⟨r, hr, hid⟩ := hex
      exact ⟨r, hr, by simp [hid]⟩
    have hne : ¬ (s.rows.filter (fun r => r.id ≠ rid)).length = s.rows.length :=
      Nat.ne_of_lt hlt
    have hfst : (delete_result s rid).1 = ⟨s.rows.filter (fun r => r.id ≠ rid), s.nextId⟩ := by
      simp only [delete_result]
      rw [if_neg hne]
    have hsnd : (delete_result s rid).2 = .ok () := by
      simp only [delete_result]
      rw [if_neg hne]
    have habsent : ∀ r ∈ (delete_result s rid).1.rows, r.id ≠ rid := by
      rw [hfst]
      intro r hr
      have := List.of_mem_filter hr
      simpa using this
    refine ⟨hsnd, by rw [hfst], ?_, ?_⟩
    · intro limit r hr
      exact habsent r (mem_get_all_results _ limit r hr)
    · rw [delete_result_notfound (delete_result s rid).1 rid habsent]
  · intro hnex
    exact delete_result_notfound s rid (fun r hr hc => hnex ⟨r, hr, hc⟩)

/-- C8 witness: deleting the stored id 1 succeeds; deleting the absent id 9
answers 404 with the store unchanged. -/
theorem delete_by_id_found_iff_witness :
    (delete_result ⟨[exRow], 2⟩ 1).2 = .ok () ∧
    delete_result ⟨[exRow], 2⟩ 9 = (⟨[exRow], 2⟩, .error (.httpExc 404 "Result not found")) :=
  ⟨((delete_by_id_found_iff ⟨[exRow], 2⟩ 1).1 ⟨exRow, by decide, by decide⟩).1,
   (delete_by_id_found_iff ⟨[exRow], 2⟩ 9).2 (by decide)⟩

/-- Strict version of the per-period ordering: the sort key
(prize-type rank, id) strictly oriented.  On rows with distinct ids the lax
order refines to this. -/
def periodRelS (r1 r2 : Row) : Prop := periodRel r1 r2 ∧ r1.id ≠ r2.id

instance : IsAntisymm Row periodRelS := by
  constructor
  intro a b hab hba
  have : a.id = b.id := by
    obtain ⟨h1, _⟩ := hab
    obtain ⟨h2, _⟩ := hba
    unfold periodRel at h1 h2
    omega
  exact absurd this hab.2

/-- Two lists holding the same rows with pairwise-distinct ids and both sorted
by the per-period order are identical: the order is total and, on distinct
ids, strict, so the sorted arrangement is unique. -/
theorem sorted_perm_nodup_eq (l₁ l₂ : List Row) (hperm : l₁.Perm l₂)
    (hs₁ : List.Sorted periodRel l₁) (hs₂ : List.Sorted periodRel l₂)
    (hn₁ : l₁.Pairwise (fun a b => a.id ≠ b.id))
    (hn₂ : l₂.Pairwise (fun a b => a.id ≠ b.id)) : l₁ = l₂ := by
  have hss₁ : List.Sorted periodRelS l₁ := hs₁.and hn₁
  have hss₂ : List.Sorted periodRelS l₂ := hs₂.and hn₂
  exact List.eq_of_perm_of_sorted hperm hss₁ hss₂

/-- C6: `GET /results/{period}` returns exactly the stored rows of that
period (a permutation of the filter), sorted by the fixed prize-type rank
(`prizeRank`: first prize 1, front-3 2, back-3 3, back-2 4, anything else 5)
with ties broken by ascending id; the result is independent of insertion
order (two stores holding the same rows, ids distinct, answer identically);
and when no row matches, the empty store-level result surfaces as the 404
with its explanatory detail. -/
theorem listByPeriod_ordering_and_404 (s : Store) (period : String) :
    (∀ out, get_results_by_period s period = .ok out →
      out.Perm (s.rows.filter (fun r => r.period = period)) ∧
      List.Sorted periodRel out) ∧
    (s.rows.filter (fun r => r.period = period) = [] →
      get_results_by_period s period =
        .error (.httpExc 404 ("No results found for period " ++ period))) ∧
    (∀ s₂ : Store, idsNodup s → s.rows.Perm s₂.rows →
      get_results_by_period s period = get_results_by_period s₂ period) := by
  refine ⟨?_, ?_, ?_⟩
  · intro out h
    simp only [get_results_by_period] at h
    by_cases he : (List.insertionSort periodRel
        (s.rows.filter (fun r => r.period = period))).isEmpty = true
    · rw [if_pos he] at h
      exact absurd h (by simp)
    · rw [if_neg he] at h
      injection h with h1
      subst h1
      exact ⟨List.perm_insertionSort _ _, List.sorted_insertionSort _ _⟩
  · intro hf
    simp only [get_results_by_period, hf]
    rfl
  · intro s₂ hn hperm
    have hn₂ : idsNodup s₂ :=
      (List.Perm.pairwise_iff (fun h => Ne.symm h) hperm).mp hn
    have hfn₁ : (s.rows.filter (fun r => r.period = period)).Pairwise
        (fun a b => a.id ≠ b.id) :=
      List.Pairwise.sublist (List.filter_sublist _) hn
    have hfn₂ : (s₂.rows.filter (fun r => r.period = period)).Pairwise
        (fun a b => a.id ≠ b.id) :=
      List.Pairwise.sublist (List.filter_sublist _) hn₂
    have hpf : (s.rows.filter (fun r => r.period = period)).Perm
        (s₂.rows.filter (fun r => r.period = period)) := hperm.filter _
    have hsp : (List.insertionSort periodRel
        (s.rows.filter (fun r => r.period = period))).Perm
        (List.insertionSort periodRel (s₂.rows.filter (fun r => r.period = period))) :=
      ((List.perm_insertionSort _ _).trans hpf).trans
        (List.perm_insertionSort _ _).symm
    have heq : List.insertionSort periodRel (s.rows.filter (fun r => r.period = period)) =
        List.insertionSort periodRel (s₂.rows.filter (fun r => r.period = period)) := by
      refine sorted_perm_nodup_eq _ _ hsp (List.sorted_insertionSort _ _)
        (List.sorted_insertionSort _ _) ?_ ?_
      · exact (List.Perm.pairwise_iff (fun h => Ne.symm h)
          (List.perm_insertionSort _ _)).mpr hfn₁
      · exact (List.Perm.pairwise_iff (fun h => Ne.symm h)
          (List.perm_insertionSort _ _)).mpr hfn₂
    simp only [get_results_by_period]
    rw [heq]

/-- C6 witness: the fresh store answers 404 for any period, and a matching
one-row store answers 200 with the sorted singleton. -/
theorem listByPeriod_ordering_and_404_witness :
    (get_results_by_period Store.init "p" =
      .error (.httpExc 404 "No results found for period p")) ∧
    List.Sorted periodRel [exRow] :=
  ⟨(listByPeriod_ordering_and_404 Store.init "p").2.1 (by decide),
   ((listByPeriod_ordering_and_404 ⟨[exRow], 2⟩ "งวดวันที่ a").1 [exRow] (by decide)).2⟩

end Lottery
